import Mathlib

/-!
Shallow embedding of the arbitrage-app core (calculator, detector risk score,
orderbook model, portfolio bookkeeping, order validation and the paper-trading
engine) over exact rational arithmetic, together with theorems settling the
behavioural claims about these components.

Python `Decimal` values are modelled as `ℚ`, Python `int` as `ℤ`.  Division by
zero follows the Lean convention (`x / 0 = 0`); every theorem that mentions a
division carries hypotheses keeping the relevant denominator nonzero, so the
theorems only speak where the model and the Python code agree.
-/

/-- Ticker, from `src/models/market.py` (only the price fields, which are the
ones the calculator reads). -/
structure Ticker where
  bid : ℚ
  ask : ℚ
deriving DecidableEq

/-- Single orderbook level (price, volume), from `src/models/market.py`. -/
structure OrderbookLevel where
  price : ℚ
  volume : ℚ
deriving DecidableEq

/-- Orderbook snapshot: bid levels (descending) and ask levels (ascending),
from `src/models/market.py`. -/
structure Orderbook where
  bids : List OrderbookLevel
  asks : List OrderbookLevel
deriving DecidableEq

/-- The level list selected by a side string: `"sell"` hits the bids, anything
else hits the asks (the `levels = self.bids if side == "sell" else self.asks`
line of `get_executable_price`). -/
def Orderbook.levelsFor (ob : Orderbook) (side : String) : List OrderbookLevel :=
  if side = "sell" then ob.bids else ob.asks

/-- The level-walking loop of `Orderbook.get_executable_price`: returns the
pair `(total_cost, filled_volume)` accumulated over the levels, stopping once
the remaining requested volume is `≤ 0`. -/
def walkLevels : List OrderbookLevel → ℚ → ℚ × ℚ
  | [], _ => (0, 0)
  | l :: ls, remaining =>
      if remaining ≤ 0 then (0, 0)
      else
        let f := min remaining l.volume
        let rest := walkLevels ls (remaining - f)
        (f * l.price + rest.1, f + rest.2)

/-- `Orderbook.get_executable_price` from `src/models/market.py`: average
executable price and filled volume for a requested volume, `(0, 0)` when
nothing fills. -/
def Orderbook.get_executable_price (ob : Orderbook) (side : String) (volume : ℚ) : ℚ × ℚ :=
  let w := walkLevels (ob.levelsFor side) volume
  if w.2 = 0 then (0, 0) else (w.1 / w.2, w.2)

/-- `Orderbook.best_bid` from `src/models/market.py`. -/
def Orderbook.best_bid (ob : Orderbook) : ℚ :=
  match ob.bids with
  | [] => 0
  | l :: _ => l.price

/-- `Orderbook.best_ask` from `src/models/market.py`. -/
def Orderbook.best_ask (ob : Orderbook) : ℚ :=
  match ob.asks with
  | [] => 0
  | l :: _ => l.price

/-- `ArbitrageCalculator.calculate_cross_exchange_profit` from
`src/arbitrage/calculator.py`. -/
def calculate_cross_exchange_profit (buy_ticker sell_ticker : Ticker)
    (buy_fee_percent sell_fee_percent transfer_fee volume : ℚ) : ℚ × ℚ × ℚ :=
  let buy_price := buy_ticker.ask
  let sell_price := sell_ticker.bid
  if buy_price = 0 ∨ sell_price = 0 then (0, 0, 0)
  else
    let gross_profit_percent := ((sell_price - buy_price) / buy_price) * 100
    let total_fee_percent := buy_fee_percent + sell_fee_percent
    let net_profit_percent := gross_profit_percent - total_fee_percent
    let buy_cost := volume * buy_price * (1 + buy_fee_percent / 100)
    let sell_revenue := volume * sell_price * (1 - sell_fee_percent / 100)
    (gross_profit_percent, net_profit_percent, sell_revenue - buy_cost - transfer_fee)

/-- The level-pairing loop of
`ArbitrageCalculator.calculate_max_executable_volume`: walks the buy-side asks
and sell-side bids in tandem, accumulating volume while the spread at the
current pair of levels still covers the required spread. -/
def maxExecLoop (required_spread : ℚ) :
    List OrderbookLevel → List OrderbookLevel → ℚ → ℚ → ℚ
  | [], _, _, _ => 0
  | _ :: _, [], _, _ => 0
  | a :: as, b :: bs, buy_filled, sell_filled =>
      let spread_percent := ((b.price - a.price) / a.price) * 100
      if spread_percent < required_spread then 0
      else
        let buy_available := a.volume - buy_filled
        let sell_available := b.volume - sell_filled
        let trade_volume := min buy_available sell_available
        if buy_available ≤ sell_available then
          trade_volume + maxExecLoop required_spread as (b :: bs) 0 (sell_filled + trade_volume)
        else
          trade_volume + maxExecLoop required_spread (a :: as) bs (buy_filled + trade_volume) 0
termination_by ls1 ls2 _ _ => ls1.length + ls2.length
decreasing_by
  all_goals simp only [List.length_cons]
  · omega
  · omega

/-- `ArbitrageCalculator.calculate_max_executable_volume` from
`src/arbitrage/calculator.py`. -/
def calculate_max_executable_volume (buy_orderbook sell_orderbook : Orderbook)
    (min_profit_percent buy_fee_percent sell_fee_percent : ℚ) : ℚ :=
  maxExecLoop (buy_fee_percent + sell_fee_percent + min_profit_percent)
    buy_orderbook.asks sell_orderbook.bids 0 0

/-- `ArbitrageCalculator.estimate_slippage` from `src/arbitrage/calculator.py`. -/
def estimate_slippage (orderbook : Orderbook) (side : String) (volume : ℚ) : ℚ :=
  if volume = 0 then 0
  else
    let r := orderbook.get_executable_price side volume
    if r.2 = 0 then 100
    else if r.2 < volume then 50
    else
      let best_price := if side = "sell" then orderbook.best_bid else orderbook.best_ask
      if best_price = 0 then 0
      else |(r.1 - best_price) / best_price| * 100

/-- `ArbitrageDetector._calculate_risk_score` from `src/arbitrage/detector.py`:
weight 0.3 on the profit factor, 0.4 on the slippage factor, 0.3 on the volume
factor, with the final value clamped into `[0, 1]`. -/
def calculate_risk_score (profit_percent slippage_percent volume : ℚ) : ℚ :=
  let profit_factor := max 0 (1 - profit_percent / 10)
  let slippage_factor := min 1 (slippage_percent / 5)
  let volume_factor := max 0 (1 - volume / 10)
  let risk := profit_factor * (3 / 10) + slippage_factor * (4 / 10) + volume_factor * (3 / 10)
  min 1 (max 0 risk)

/-- Clamp into the unit interval. -/
def clamp01 (x : ℚ) : ℚ := min 1 (max 0 x)

/-- Modelled from the spec: the risk score as the spec sentence describes it,
with each of the three factors individually clamped into `[0, 1]` before the
0.3 / 0.4 / 0.3 weighting is applied and the result clamped into `[0, 1]`. -/
def calculate_risk_score_clamped_factors (profit_percent slippage_percent volume : ℚ) : ℚ :=
  clamp01 (clamp01 (1 - profit_percent / 10) * (3 / 10)
    + clamp01 (slippage_percent / 5) * (4 / 10)
    + clamp01 (1 - volume / 10) * (3 / 10))

/-- The risk score with the one-sided clamps the code actually applies:
profit and volume factors clamped below at 0 only, the slippage factor clamped
above at 1 only, final result clamped into `[0, 1]`. -/
def calculate_risk_score_one_sided (profit_percent slippage_percent volume : ℚ) : ℚ :=
  clamp01 (max 0 (1 - profit_percent / 10) * (3 / 10)
    + min 1 (slippage_percent / 5) * (4 / 10)
    + max 0 (1 - volume / 10) * (3 / 10))

/-- Balance for a single currency, from `src/models/portfolio.py` (the fields
touched by the execution path). -/
structure Balance where
  available : ℚ
  locked : ℚ
deriving DecidableEq

/-- Portfolio state, from `src/models/portfolio.py` (the fields read or written
by `record_trade` and by the paper trader's `_update_portfolio`; counters are
Python ints, amounts are Decimals). -/
structure Portfolio where
  balances : List (String × Balance)
  total_value_usd : ℚ
  initial_value_usd : ℚ
  total_pnl_usd : ℚ
  total_pnl_percent : ℚ
  realized_pnl : ℚ
  unrealized_pnl : ℚ
  total_trades : ℤ
  winning_trades : ℤ
  losing_trades : ℤ
  max_drawdown_usd : ℚ
  max_drawdown_percent : ℚ
deriving DecidableEq

/-- `Portfolio.win_rate` from `src/models/portfolio.py`. -/
def Portfolio.win_rate (p : Portfolio) : ℚ :=
  if p.total_trades = 0 then 0
  else (p.winning_trades : ℚ) / (p.total_trades : ℚ) * 100

/-- `Portfolio.record_trade` from `src/models/portfolio.py`. -/
def Portfolio.record_trade (p : Portfolio) (profit : ℚ) : Portfolio :=
  let p1 := { p with
    total_trades := p.total_trades + 1
    total_pnl_usd := p.total_pnl_usd + profit
    realized_pnl := p.realized_pnl + profit
    total_value_usd := p.total_value_usd + profit }
  let p2 :=
    if profit > 0 then { p1 with winning_trades := p1.winning_trades + 1 }
    else { p1 with losing_trades := p1.losing_trades + 1 }
  let p3 :=
    if p2.initial_value_usd > 0 then
      { p2 with total_pnl_percent := p2.total_pnl_usd / p2.initial_value_usd * 100 }
    else p2
  if p3.total_pnl_usd < 0 then
    let drawdown := |p3.total_pnl_usd|
    if drawdown > p3.max_drawdown_usd then
      if p3.initial_value_usd > 0 then
        { p3 with
          max_drawdown_usd := drawdown
          max_drawdown_percent := drawdown / p3.initial_value_usd * 100 }
      else { p3 with max_drawdown_usd := drawdown }
    else p3
  else p3

/-- A sequence of `record_trade` calls, applied left to right. -/
def recordTradeSeq (p : Portfolio) (profits : List ℚ) : Portfolio :=
  profits.foldl Portfolio.record_trade p

/-- Order side, from `src/models/trade.py`. -/
inductive OrderSide where
  | buy
  | sell
deriving DecidableEq

/-- Order execution status, from `src/models/trade.py` (`PARTIAL` is spelt
`partFilled` here because of Lean lexical constraints). -/
inductive OrderStatus where
  | pending
  | opened
  | partFilled
  | filled
  | cancelled
  | failed
deriving DecidableEq

/-- One leg of a trade, from `src/models/trade.py` (the fields the paper
trader reads or writes). -/
structure Order where
  exchange : String
  symbol : String
  side : OrderSide
  requested_volume : ℚ
  filled_volume : ℚ
  average_fill_price : Option ℚ
  status : OrderStatus
  fee_paid : ℚ
  would_have_executed : Bool
  simulated_slippage : ℚ
deriving DecidableEq

/-- A complete arbitrage trade, from `src/models/trade.py` (the fields
`PaperTrader.execute_arbitrage` fills in). -/
structure Trade where
  buy_order : Order
  sell_order : Order
  gross_profit : ℚ
  total_fees : ℚ
  net_profit : ℚ
  net_profit_percent : ℚ
  status : String
  both_orders_would_have_executed : Bool
deriving DecidableEq

/-- An arbitrage opportunity, from `src/models/opportunity.py` (the fields the
paper trader reads). -/
structure ArbitrageOpportunity where
  symbol : String
  buy_exchange : String
  sell_exchange : String
  buy_price : ℚ
  sell_price : ℚ
  recommended_volume : ℚ
  buy_fee_percent : ℚ
  sell_fee_percent : ℚ
deriving DecidableEq

/-- `OrderValidator.min_fill_ratio` (95% fill required). -/
def min_fill_ratio : ℚ := 95 / 100

/-- `OrderValidator.max_price_deviation` (1% max deviation). -/
def max_price_deviation : ℚ := 1 / 100

/-- Truthiness of `order.average_fill_price` in Python: `None` and `0` are
falsy. -/
def afpTruthy : Option ℚ → Bool
  | none => false
  | some x => decide (x ≠ 0)

/-- `OrderValidator.would_have_executed` from
`src/execution/order_validator.py`. -/
def would_have_executed (order : Order) (orderbook : Orderbook) (side : String) : Bool :=
  let r := orderbook.get_executable_price side order.requested_volume
  if r.2 < order.requested_volume * min_fill_ratio then false
  else if afpTruthy order.average_fill_price then
    match order.average_fill_price with
    | none => true
    | some expected =>
        if side = "buy" then
          if r.1 > expected * (1 + max_price_deviation) then false else true
        else
          if r.1 < expected * (1 - max_price_deviation) then false else true
  else true

/-- `SlippageSimulator.simulate` from `src/execution/slippage.py`, with the
uniform random draw passed in as the explicit `random_factor` argument. -/
def simulate_slippage (orderbook : Orderbook) (side : String) (volume : ℚ)
    (random_factor : ℚ) : ℚ :=
  let base := (5 : ℚ) / 100
  let slippage :=
    if orderbook.bids ≠ [] ∧ orderbook.asks ≠ [] then
      let top_level_volume :=
        if side = "buy" then
          match orderbook.asks with
          | [] => 1
          | l :: _ => l.volume
        else
          match orderbook.bids with
          | [] => 1
          | l :: _ => l.volume
      if top_level_volume > 0 then base + (volume / top_level_volume) * (1 / 10)
      else base
    else base
  min (slippage * random_factor) 2

/-- `PaperTrader._create_paper_order` from `src/execution/paper_trader.py`
(ids and timestamps omitted; the slippage simulator's random draw is the
explicit `random_factor` argument). -/
def create_paper_order (opportunity : ArbitrageOpportunity) (side : OrderSide)
    (orderbook : Orderbook) (exchange : String) (random_factor : ℚ) : Order :=
  let volume := opportunity.recommended_volume
  let sideStr : String := match side with | .buy => "buy" | .sell => "sell"
  let slippage := simulate_slippage orderbook sideStr volume random_factor
  let execution_price :=
    match side with
    | .buy => opportunity.buy_price * (1 + slippage / 100)
    | .sell => opportunity.sell_price * (1 - slippage / 100)
  let fee_percent :=
    match side with
    | .buy => opportunity.buy_fee_percent
    | .sell => opportunity.sell_fee_percent
  let fee_paid := volume * execution_price * fee_percent / 100
  { exchange := exchange
    symbol := opportunity.symbol
    side := side
    requested_volume := volume
    filled_volume := 0
    average_fill_price := some execution_price
    status := .pending
    fee_paid := fee_paid
    would_have_executed := true
    simulated_slippage := slippage }

/-- `PaperTrader._calculate_gross_profit` from `src/execution/paper_trader.py`
(`if not ... average_fill_price` is Python truthiness: `None` or `0`). -/
def calculate_gross_profit (buy_order sell_order : Order) : ℚ :=
  if afpTruthy buy_order.average_fill_price = false
      ∨ afpTruthy sell_order.average_fill_price = false then 0
  else
    let buy_cost := buy_order.filled_volume * (buy_order.average_fill_price.getD 0)
    let sell_revenue := sell_order.filled_volume * (sell_order.average_fill_price.getD 0)
    sell_revenue - buy_cost

/-- `PaperTrader._update_portfolio` from `src/execution/paper_trader.py`. -/
def update_portfolio (portfolio : Portfolio) (net_profit : ℚ) : Portfolio :=
  let p1 := { portfolio with
    total_pnl_usd := portfolio.total_pnl_usd + net_profit
    realized_pnl := portfolio.realized_pnl + net_profit
    total_value_usd := portfolio.total_value_usd + net_profit
    total_trades := portfolio.total_trades + 1 }
  let p2 :=
    if net_profit > 0 then { p1 with winning_trades := p1.winning_trades + 1 }
    else { p1 with losing_trades := p1.losing_trades + 1 }
  let p3 :=
    if p2.initial_value_usd > 0 then
      { p2 with total_pnl_percent := p2.total_pnl_usd / p2.initial_value_usd * 100 }
    else p2
  if p3.total_pnl_usd < 0 then
    let drawdown := |p3.total_pnl_usd|
    if drawdown > p3.max_drawdown_usd then
      if p3.initial_value_usd > 0 then
        { p3 with
          max_drawdown_usd := drawdown
          max_drawdown_percent := drawdown / p3.initial_value_usd * 100 }
      else { p3 with max_drawdown_usd := drawdown }
    else p3
  else p3

/-- `PaperTrader.execute_arbitrage` from `src/execution/paper_trader.py`:
creates the two paper orders, validates both legs, and either fills both and
updates the portfolio or marks the failing leg(s) and leaves the portfolio
alone.  The two random slippage draws are explicit arguments; ids, timestamps,
latency and logging are omitted.  Returns the trade together with the
portfolio state after the call. -/
def execute_arbitrage (portfolio : Portfolio) (opportunity : ArbitrageOpportunity)
    (buy_orderbook sell_orderbook : Orderbook)
    (buy_random sell_random : ℚ) : Trade × Portfolio :=
  let buy_order0 :=
    create_paper_order opportunity .buy buy_orderbook opportunity.buy_exchange buy_random
  let sell_order0 :=
    create_paper_order opportunity .sell sell_orderbook opportunity.sell_exchange sell_random
  let buy_would_execute := would_have_executed buy_order0 buy_orderbook "buy"
  let sell_would_execute := would_have_executed sell_order0 sell_orderbook "sell"
  let buy_order1 := { buy_order0 with would_have_executed := buy_would_execute }
  let sell_order1 := { sell_order0 with would_have_executed := sell_would_execute }
  let result :=
    if buy_would_execute ∧ sell_would_execute then
      let buy_order := { buy_order1 with
        status := .filled, filled_volume := buy_order1.requested_volume }
      let sell_order := { sell_order1 with
        status := .filled, filled_volume := sell_order1.requested_volume }
      let gross_profit := calculate_gross_profit buy_order sell_order
      let total_fees := buy_order.fee_paid + sell_order.fee_paid
      let net_profit := gross_profit - total_fees
      (buy_order, sell_order, gross_profit, total_fees, net_profit,
        update_portfolio portfolio net_profit, "completed")
    else
      let buy_order := { buy_order1 with
        status := if buy_would_execute then OrderStatus.filled else OrderStatus.failed }
      let sell_order := { sell_order1 with
        status := if sell_would_execute then OrderStatus.filled else OrderStatus.failed }
      (buy_order, sell_order, 0, 0, 0, portfolio, "failed")
  let (buy_order, sell_order, gross_profit, total_fees, net_profit, portfolio1, status) := result
  let net_profit_percent :=
    if afpTruthy buy_order.average_fill_price ∧ buy_order.requested_volume > 0 then
      let trade_value := buy_order.requested_volume * (buy_order.average_fill_price.getD 0)
      if trade_value > 0 then (net_profit / trade_value) * 100 else 0
    else 0
  (⟨buy_order, sell_order, gross_profit, total_fees, net_profit, net_profit_percent,
    status, buy_would_execute && sell_would_execute⟩, portfolio1)

/-- C1: for every pair of tickers and fee/volume inputs,
`calculate_cross_exchange_profit` returns exactly the spec's
(gross%, net%, profit_usd) triple, and returns (0, 0, 0) whenever the buy ask
or the sell bid is zero. -/
theorem cross_exchange_profit_formula :
    ∀ (bt st : Ticker) (bf sf tf v : ℚ),
      ((bt.ask = 0 ∨ st.bid = 0) →
        calculate_cross_exchange_profit bt st bf sf tf v = (0, 0, 0)) ∧
      (bt.ask ≠ 0 → st.bid ≠ 0 →
        calculate_cross_exchange_profit bt st bf sf tf v =
          (((st.bid - bt.ask) / bt.ask) * 100,
            ((st.bid - bt.ask) / bt.ask) * 100 - (bf + sf),
            v * st.bid * (1 - sf / 100) - v * bt.ask * (1 + bf / 100) - tf)) := by
  intro bt st bf sf tf v
  constructor
  · intro h
    simp only [calculate_cross_exchange_profit, if_pos h]
  · intro h1 h2
    have hno : ¬(bt.ask = 0 ∨ st.bid = 0) := not_or.mpr ⟨h1, h2⟩
    simp only [calculate_cross_exchange_profit, if_neg hno]

/-- Witness for C1 at a concrete input: buy ask 100, sell bid 102, 1% fee on
each leg, volume 1, no transfer fee. -/
theorem cross_exchange_profit_formula_witness :
    calculate_cross_exchange_profit ⟨0, 100⟩ ⟨102, 0⟩ 1 1 0 1 = (2, 0, -1 / 50) := by
  have h := (cross_exchange_profit_formula ⟨0, 100⟩ ⟨102, 0⟩ 1 1 0 1).2
    (by decide) (by decide)
  rw [h]
  norm_num

/-- C5: for every input triple, the detector's risk score lies in `[0, 1]`. -/
theorem risk_score_in_unit_interval :
    ∀ profit_percent slippage_percent volume : ℚ,
      0 ≤ calculate_risk_score profit_percent slippage_percent volume ∧
        calculate_risk_score profit_percent slippage_percent volume ≤ 1 := by
  intro p s v
  unfold calculate_risk_score
  exact ⟨le_min (by norm_num) (le_max_left 0 _), min_le_left _ _⟩

/-- C6 counterexample: at profit −100%, zero slippage and zero volume, the
code's risk score (whose profit factor is 11, not clamped above by 1) differs
from the spec's fully-clamped weighted average (1 versus 0.6). -/
theorem risk_score_clamped_factors_counterexample :
    calculate_risk_score (-100) 0 0 ≠ calculate_risk_score_clamped_factors (-100) 0 0 := by
  norm_num [calculate_risk_score, calculate_risk_score_clamped_factors, clamp01,
    min_def, max_def]

/-- C6 amended: the risk score equals the 0.3 / 0.4 / 0.3 weighted combination
in which the profit-shortfall and illiquidity factors are clamped below at 0
only, the slippage factor is clamped above at 1 only, and the final result is
clamped into `[0, 1]`. -/
theorem risk_score_one_sided_formula :
    ∀ profit_percent slippage_percent volume : ℚ,
      calculate_risk_score profit_percent slippage_percent volume =
        calculate_risk_score_one_sided profit_percent slippage_percent volume := by
  intro p s v
  rfl

/-- Helper: the level walk fills nothing when the requested remaining volume
is nonpositive. -/
theorem walkLevels_nonpos (ls : List OrderbookLevel) (r : ℚ) (h : r ≤ 0) :
    walkLevels ls r = (0, 0) := by
  cases ls with
  | nil => rfl
  | cons l ls => simp [walkLevels, if_pos h]

/-- C7: whenever the required spread (buy fee % + sell fee % + minimum
profit %) strictly exceeds the spread computed from the best ask of the buy
book and the best bid of the sell book, the maximum executable volume is 0. -/
theorem max_executable_volume_zero_when_spread_insufficient :
    ∀ (buy_orderbook sell_orderbook : Orderbook) (min_profit bf sf : ℚ)
      (a b : OrderbookLevel) (as bs : List OrderbookLevel),
      buy_orderbook.asks = a :: as → sell_orderbook.bids = b :: bs →
      a.price ≠ 0 →
      ((b.price - a.price) / a.price) * 100 < bf + sf + min_profit →
      calculate_max_executable_volume buy_orderbook sell_orderbook min_profit bf sf = 0 := by
  intro buyOb sellOb minp bf sf a b as bs ha hb hp hs
  unfold calculate_max_executable_volume
  rw [ha, hb]
  rw [maxExecLoop]
  simp only [if_pos hs]

/-- Witness for C7: 0.5% best spread against a 1% requirement gives volume 0. -/
theorem max_executable_volume_zero_witness :
    calculate_max_executable_volume ⟨[], [⟨100, 1⟩]⟩ ⟨[⟨201 / 2, 1⟩], []⟩
      (4 / 5) (1 / 10) (1 / 10) = 0 := by
  exact max_executable_volume_zero_when_spread_insufficient
    ⟨[], [⟨100, 1⟩]⟩ ⟨[⟨201 / 2, 1⟩], []⟩ (4 / 5) (1 / 10) (1 / 10)
    ⟨100, 1⟩ ⟨201 / 2, 1⟩ [] [] rfl rfl (by norm_num) (by norm_num)

/-- C8 counterexample: on a book whose only ask level is (price 100, volume 5),
requested volume 0 is at most the top level's volume, yet
`get_executable_price` returns average price 0 rather than the best ask 100
(and filled volume 0 is only vacuously the requested volume). -/
theorem get_executable_price_zero_volume_counterexample :
    (0 : ℚ) ≤ 5 ∧
      (Orderbook.get_executable_price ⟨[], [⟨100, 5⟩]⟩ "buy" 0).1 ≠
        Orderbook.best_ask ⟨[], [⟨100, 5⟩]⟩ := by
  constructor
  · norm_num
  · norm_num [Orderbook.get_executable_price, Orderbook.levelsFor, walkLevels,
      Orderbook.best_ask]

/-- C8 amended: `get_executable_price` on an empty level list returns (0, 0),
and for every strictly positive requested volume that is at most the top
level's volume, it returns exactly (best price of that side, requested
volume). -/
theorem get_executable_price_empty_and_top_level :
    ∀ (ob : Orderbook) (side : String) (v : ℚ),
      (ob.levelsFor side = [] → ob.get_executable_price side v = (0, 0)) ∧
      (∀ l ls, ob.levelsFor side = l :: ls → 0 < v → v ≤ l.volume →
        ob.get_executable_price side v =
          ((if side = "sell" then ob.best_bid else ob.best_ask), v)) := by
  intro ob side v
  constructor
  · intro h
    simp [Orderbook.get_executable_price, h, walkLevels]
  · intro l ls h hv hvol
    have hwalk : walkLevels (ob.levelsFor side) v = (v * l.price, v) := by
      rw [h]
      simp only [walkLevels, if_neg (not_le.mpr hv)]
      rw [min_eq_left hvol]
      rw [sub_self, walkLevels_nonpos ls 0 le_rfl]
      simp
    have hbest : l.price = (if side = "sell" then ob.best_bid else ob.best_ask) := by
      by_cases hside : side = "sell"
      · have hb : ob.bids = l :: ls := by
          simpa [Orderbook.levelsFor, hside] using h
        simp [hside, Orderbook.best_bid, hb]
      · have hb : ob.asks = l :: ls := by
          simpa [Orderbook.levelsFor, hside] using h
        simp [hside, Orderbook.best_ask, hb]
    simp only [Orderbook.get_executable_price, hwalk]
    rw [if_neg (by exact ne_of_gt hv)]
    rw [mul_div_cancel_left₀ _ (ne_of_gt hv), hbest]

/-- Witness for C8's amended statement: requesting volume 3 against a single
ask level (price 100, volume 5) fills 3 at average price 100. -/
theorem get_executable_price_top_level_witness :
    Orderbook.get_executable_price ⟨[], [⟨100, 5⟩]⟩ "buy" 3 = (100, 3) := by
  have h := (get_executable_price_empty_and_top_level ⟨[], [⟨100, 5⟩]⟩ "buy" 3).2
    ⟨100, 5⟩ [] rfl (by norm_num) (by norm_num)
  simpa [Orderbook.best_ask] using h

/-- C9: when an order's expected average fill price is `None` or zero, the
validator skips the price-deviation check and `would_have_executed` is true
exactly when the book-walk's available volume at the requested volume is at
least `min_fill_ratio` (0.95) times the requested volume. -/
theorem would_have_executed_no_price_check :
    ∀ (order : Order) (ob : Orderbook) (side : String),
      (order.average_fill_price = none ∨ order.average_fill_price = some 0) →
      (would_have_executed order ob side = true ↔
        order.requested_volume * min_fill_ratio ≤
          (ob.get_executable_price side order.requested_volume).2) := by
  intro order ob side h
  have hf : afpTruthy order.average_fill_price = false := by
    rcases h with h | h <;> simp [afpTruthy, h]
  unfold would_have_executed
  rw [hf]
  by_cases hlt : (ob.get_executable_price side order.requested_volume).2 <
      order.requested_volume * min_fill_ratio
  · simp [hlt, not_le.mpr hlt]
  · simp [hlt, not_lt.mp hlt]

/-- Witness for C9: an order with no expected fill price and requested volume
1 against a book with 2 units at the top ask level would have executed. -/
theorem would_have_executed_no_price_check_witness :
    would_have_executed
      ⟨"e", "s", .buy, 1, 0, none, .pending, 0, true, 0⟩ ⟨[], [⟨100, 2⟩]⟩ "buy" = true := by
  refine (would_have_executed_no_price_check
    ⟨"e", "s", .buy, 1, 0, none, .pending, 0, true, 0⟩ ⟨[], [⟨100, 2⟩]⟩ "buy"
    (Or.inl rfl)).mpr ?_
  norm_num [Orderbook.get_executable_price, Orderbook.levelsFor, walkLevels,
    min_fill_ratio, min_def]

/-- `record_trade` increments the total-trade counter, and exactly one of the
winning / losing counters, the winning one exactly when the profit is strictly
positive. -/
theorem record_trade_counters (p : Portfolio) (x : ℚ) :
    (p.record_trade x).total_trades = p.total_trades + 1 ∧
      (p.record_trade x).winning_trades = p.winning_trades + (if x > 0 then 1 else 0) ∧
      (p.record_trade x).losing_trades = p.losing_trades + (if x > 0 then 0 else 1) := by
  by_cases hx : x > 0 <;>
    simp only [Portfolio.record_trade, hx, if_true, if_false] <;>
    split_ifs <;> simp

/-- `record_trade` never decreases the max-drawdown high-water mark. -/
theorem record_trade_dd_mono (p : Portfolio) (x : ℚ) :
    p.max_drawdown_usd ≤ (p.record_trade x).max_drawdown_usd := by
  by_cases hx : x > 0 <;>
    simp only [Portfolio.record_trade, hx, if_true, if_false] <;>
    split_ifs <;> simp_all <;> linarith

/-- Max drawdown is monotone across any sequence of `record_trade` calls. -/
theorem recordTradeSeq_dd_mono (p : Portfolio) (l : List ℚ) :
    p.max_drawdown_usd ≤ (recordTradeSeq p l).max_drawdown_usd := by
  induction l generalizing p with
  | nil => simp [recordTradeSeq]
  | cons x xs ih =>
      calc p.max_drawdown_usd
          ≤ (p.record_trade x).max_drawdown_usd := record_trade_dd_mono p x
        _ ≤ _ := by simpa [recordTradeSeq] using ih (p.record_trade x)

/-- A sequence of `record_trade` calls preserves
`0 ≤ winning_trades ≤ total_trades`. -/
theorem recordTradeSeq_win_le_total (p : Portfolio) (l : List ℚ)
    (h1 : 0 ≤ p.winning_trades) (h2 : p.winning_trades ≤ p.total_trades) :
    0 ≤ (recordTradeSeq p l).winning_trades ∧
      (recordTradeSeq p l).winning_trades ≤ (recordTradeSeq p l).total_trades := by
  induction l generalizing p with
  | nil => exact ⟨h1, h2⟩
  | cons x xs ih =>
      obtain ⟨ht, hw, -⟩ := record_trade_counters p x
      have hnext : 0 ≤ (p.record_trade x).winning_trades ∧
          (p.record_trade x).winning_trades ≤ (p.record_trade x).total_trades := by
        by_cases hx : x > 0 <;> simp [hx] at hw <;> omega
      simpa [recordTradeSeq] using ih (p.record_trade x) hnext.1 hnext.2

/-- With consistent counters, the win rate lies in `[0, 100]`. -/
theorem win_rate_bounds (p : Portfolio) (h1 : 0 ≤ p.winning_trades)
    (h2 : p.winning_trades ≤ p.total_trades) :
    0 ≤ p.win_rate ∧ p.win_rate ≤ 100 := by
  unfold Portfolio.win_rate
  split_ifs with h
  · norm_num
  · have ht : 0 < p.total_trades := lt_of_le_of_ne (le_trans h1 h2) (Ne.symm h)
    have htq : (0 : ℚ) < (p.total_trades : ℚ) := by exact_mod_cast ht
    have hw : (0 : ℚ) ≤ (p.winning_trades : ℚ) := by exact_mod_cast h1
    have hle : (p.winning_trades : ℚ) ≤ (p.total_trades : ℚ) := by exact_mod_cast h2
    constructor
    · exact mul_nonneg (div_nonneg hw htq.le) (by norm_num)
    · have hdiv : (p.winning_trades : ℚ) / (p.total_trades : ℚ) ≤ 1 :=
        (div_le_one htq).mpr hle
      linarith

/-- C3 counterexample: starting from a Portfolio state whose winning counter
(5) exceeds its total counter (0), a single `record_trade` call of profit 0
yields a win rate of 500, outside `[0, 100]`. -/
theorem record_trade_win_rate_counterexample :
    100 < (Portfolio.record_trade ⟨[], 0, 0, 0, 0, 0, 0, 0, 5, 0, 0, 0⟩ 0).win_rate := by
  norm_num [Portfolio.record_trade, Portfolio.win_rate]

/-- C3 amended: across any sequence of `record_trade` calls,
`max_drawdown_usd` never decreases (from any starting state); and from any
starting state whose counters satisfy `0 ≤ winning_trades ≤ total_trades`
(true of every freshly initialised portfolio and preserved by every call),
after the sequence the win rate is in `[0, 100]`, equals
`winning_trades / total_trades * 100` when `total_trades ≠ 0`, and equals 0
when `total_trades = 0`. -/
theorem record_trade_drawdown_monotone_and_win_rate :
    ∀ (p : Portfolio) (l : List ℚ),
      p.max_drawdown_usd ≤ (recordTradeSeq p l).max_drawdown_usd ∧
      (0 ≤ p.winning_trades → p.winning_trades ≤ p.total_trades →
        (0 ≤ (recordTradeSeq p l).win_rate ∧ (recordTradeSeq p l).win_rate ≤ 100 ∧
          ((recordTradeSeq p l).total_trades = 0 → (recordTradeSeq p l).win_rate = 0) ∧
          ((recordTradeSeq p l).total_trades ≠ 0 →
            (recordTradeSeq p l).win_rate =
              ((recordTradeSeq p l).winning_trades : ℚ) /
                ((recordTradeSeq p l).total_trades : ℚ) * 100))) := by
  intro p l
  refine ⟨recordTradeSeq_dd_mono p l, ?_⟩
  intro h1 h2
  obtain ⟨hw0, hwt⟩ := recordTradeSeq_win_le_total p l h1 h2
  obtain ⟨hr0, hr100⟩ := win_rate_bounds _ hw0 hwt
  refine ⟨hr0, hr100, ?_, ?_⟩
  · intro h0
    simp [Portfolio.win_rate, h0]
  · intro h0
    simp [Portfolio.win_rate, h0]

/-- Witness for C3's amended statement: the zero-initialised portfolio after
profits +5 and −3 has monotone drawdown and a win rate of 50. -/
theorem record_trade_drawdown_monotone_and_win_rate_witness :
    (0 : ℚ) ≤ (recordTradeSeq ⟨[], 0, 0, 0, 0, 0, 0, 0, 0, 0, 0, 0⟩ [5, -3]).win_rate ∧
      (recordTradeSeq ⟨[], 0, 0, 0, 0, 0, 0, 0, 0, 0, 0, 0⟩ [5, -3]).win_rate ≤ 100 := by
  have h := (record_trade_drawdown_monotone_and_win_rate
    ⟨[], 0, 0, 0, 0, 0, 0, 0, 0, 0, 0, 0⟩ [5, -3]).2 (by norm_num) (by norm_num)
  exact ⟨h.1, h.2.1⟩

/-- C10: `record_trade` with profit exactly 0 increments the losing counter
and leaves the winning counter unchanged, and any sequence of `record_trade`
calls preserves the invariant
`total_trades = winning_trades + losing_trades`. -/
theorem record_trade_zero_profit_and_count_invariant :
    ∀ (p : Portfolio) (l : List ℚ),
      ((p.record_trade 0).losing_trades = p.losing_trades + 1 ∧
        (p.record_trade 0).winning_trades = p.winning_trades) ∧
      (p.total_trades = p.winning_trades + p.losing_trades →
        (recordTradeSeq p l).total_trades =
          (recordTradeSeq p l).winning_trades + (recordTradeSeq p l).losing_trades) := by
  intro p l
  constructor
  · obtain ⟨-, hw, hl⟩ := record_trade_counters p 0
    constructor
    · simpa using hl
    · simpa using hw
  · intro hinv
    induction l generalizing p with
    | nil => simpa [recordTradeSeq] using hinv
    | cons x xs ih =>
        obtain ⟨ht, hw, hl⟩ := record_trade_counters p x
        have hnext : (p.record_trade x).total_trades =
            (p.record_trade x).winning_trades + (p.record_trade x).losing_trades := by
          by_cases hx : x > 0 <;> simp [hx] at hw hl <;> omega
        simpa [recordTradeSeq] using ih (p.record_trade x) hnext

/-- Witness for C10 at a concrete input: one zero-profit trade on the
zero-initialised portfolio gives counters (total 1, winning 0, losing 1). -/
theorem record_trade_zero_profit_witness :
    (Portfolio.record_trade ⟨[], 0, 0, 0, 0, 0, 0, 0, 0, 0, 0, 0⟩ 0).losing_trades = 1 ∧
      (recordTradeSeq ⟨[], 0, 0, 0, 0, 0, 0, 0, 0, 0, 0, 0⟩ [0]).total_trades =
        (recordTradeSeq ⟨[], 0, 0, 0, 0, 0, 0, 0, 0, 0, 0, 0⟩ [0]).winning_trades +
          (recordTradeSeq ⟨[], 0, 0, 0, 0, 0, 0, 0, 0, 0, 0, 0⟩ [0]).losing_trades := by
  have h := record_trade_zero_profit_and_count_invariant
    ⟨[], 0, 0, 0, 0, 0, 0, 0, 0, 0, 0, 0⟩ [0]
  exact ⟨by rw [h.1.1]; norm_num, h.2 (by norm_num)⟩

/-- C2: if either leg's `would_have_executed` validation fails, the trade
comes back with status "failed" and zeroed gross / fees / net, the failing
leg's order is `failed` while a passing leg is `filled`, and the portfolio
state is returned entirely unchanged. -/
theorem execute_arbitrage_failed_leg :
    ∀ (portfolio : Portfolio) (opp : ArbitrageOpportunity)
      (buy_orderbook sell_orderbook : Orderbook) (br sr : ℚ),
      (would_have_executed (create_paper_order opp .buy buy_orderbook opp.buy_exchange br)
          buy_orderbook "buy" = false ∨
        would_have_executed (create_paper_order opp .sell sell_orderbook opp.sell_exchange sr)
          sell_orderbook "sell" = false) →
      ((execute_arbitrage portfolio opp buy_orderbook sell_orderbook br sr).1.status = "failed" ∧
        (execute_arbitrage portfolio opp buy_orderbook sell_orderbook br sr).1.gross_profit = 0 ∧
        (execute_arbitrage portfolio opp buy_orderbook sell_orderbook br sr).1.total_fees = 0 ∧
        (execute_arbitrage portfolio opp buy_orderbook sell_orderbook br sr).1.net_profit = 0 ∧
        (execute_arbitrage portfolio opp buy_orderbook sell_orderbook br sr).1.buy_order.status =
          (if would_have_executed (create_paper_order opp .buy buy_orderbook opp.buy_exchange br)
              buy_orderbook "buy" then OrderStatus.filled else OrderStatus.failed) ∧
        (execute_arbitrage portfolio opp buy_orderbook sell_orderbook br sr).1.sell_order.status =
          (if would_have_executed (create_paper_order opp .sell sell_orderbook opp.sell_exchange sr)
              sell_orderbook "sell" then OrderStatus.filled else OrderStatus.failed) ∧
        (execute_arbitrage portfolio opp buy_orderbook sell_orderbook br sr).2 = portfolio) := by
  intro P opp bo so br sr h
  cases hb : would_have_executed (create_paper_order opp .buy bo opp.buy_exchange br) bo "buy" <;>
    cases hs : would_have_executed (create_paper_order opp .sell so opp.sell_exchange sr) so "sell"
  · simp [execute_arbitrage, hb, hs]
  · simp [execute_arbitrage, hb, hs]
  · simp [execute_arbitrage, hb, hs]
  · rw [hb, hs] at h
    simp at h

/-- Witness for C2: against two empty orderbooks both legs fail liquidity
validation, the trade is failed and the portfolio comes back unchanged. -/
theorem execute_arbitrage_failed_leg_witness :
    (execute_arbitrage ⟨[], 0, 0, 0, 0, 0, 0, 0, 0, 0, 0, 0⟩
      ⟨"BTC", "b", "s", 100, 101, 1, 0, 0⟩ ⟨[], []⟩ ⟨[], []⟩ 1 1).1.status = "failed" ∧
    (execute_arbitrage ⟨[], 0, 0, 0, 0, 0, 0, 0, 0, 0, 0, 0⟩
      ⟨"BTC", "b", "s", 100, 101, 1, 0, 0⟩ ⟨[], []⟩ ⟨[], []⟩ 1 1).2 =
        ⟨[], 0, 0, 0, 0, 0, 0, 0, 0, 0, 0, 0⟩ := by
  have h := execute_arbitrage_failed_leg ⟨[], 0, 0, 0, 0, 0, 0, 0, 0, 0, 0, 0⟩
    ⟨"BTC", "b", "s", 100, 101, 1, 0, 0⟩ ⟨[], []⟩ ⟨[], []⟩ 1 1
    (Or.inl (by norm_num [would_have_executed, create_paper_order,
      Orderbook.get_executable_price, Orderbook.levelsFor, walkLevels,
      min_fill_ratio]))
  exact ⟨h.1, h.2.2.2.2.2.2⟩

/-- C4 counterexample: on the ask book [(price 1, volume 1),
(price 10, volume 100)], requesting 101 fills fully at a slippage of
90000/101 ≈ 891%, while requesting the larger volume 102 only partially fills
and returns the 50% sentinel — slippage decreases as volume grows. -/
theorem estimate_slippage_not_monotone :
    (101 : ℚ) ≤ 102 ∧
      estimate_slippage ⟨[], [⟨1, 1⟩, ⟨10, 100⟩]⟩ "buy" 102 <
        estimate_slippage ⟨[], [⟨1, 1⟩, ⟨10, 100⟩]⟩ "buy" 101 := by
  refine ⟨by norm_num, ?_⟩
  have h1 : estimate_slippage ⟨[], [⟨1, 1⟩, ⟨10, 100⟩]⟩ "buy" 101 = 90000 / 101 := by
    simp [estimate_slippage, Orderbook.get_executable_price, Orderbook.levelsFor,
      walkLevels, Orderbook.best_ask, min_def]
    norm_num [abs_of_nonneg]
  have h2 : estimate_slippage ⟨[], [⟨1, 1⟩, ⟨10, 100⟩]⟩ "buy" 102 = 50 := by
    simp [estimate_slippage, Orderbook.get_executable_price, Orderbook.levelsFor,
      walkLevels, Orderbook.best_ask, min_def]
    norm_num
  rw [h1, h2]
  norm_num

/-- Sum of the volumes of a level list. -/
def totalVolume (ls : List OrderbookLevel) : ℚ := (ls.map OrderbookLevel.volume).sum

/-- A book with nonnegative level volumes has nonnegative total volume. -/
theorem totalVolume_nonneg (ls : List OrderbookLevel)
    (h : ∀ l ∈ ls, 0 ≤ l.volume) : 0 ≤ totalVolume ls := by
  unfold totalVolume
  apply List.sum_nonneg
  intro x hx
  obtain ⟨l, hl, rfl⟩ := List.mem_map.mp hx
  exact h l hl

/-- On a book with nonnegative level volumes, the walk fills exactly the
minimum of the requested volume and the book's total volume. -/
theorem walkLevels_filled_eq_min (ls : List OrderbookLevel) :
    ∀ v : ℚ, 0 ≤ v → (∀ l ∈ ls, 0 ≤ l.volume) →
      (walkLevels ls v).2 = min v (totalVolume ls) := by
  induction ls with
  | nil =>
      intro v hv _
      rw [show totalVolume [] = 0 from rfl, min_eq_right hv]
      simp [walkLevels]
  | cons l ls ih =>
      intro v hv hvol
      have hlv : 0 ≤ l.volume := hvol l (List.mem_cons_self l ls)
      have hS : 0 ≤ totalVolume ls :=
        totalVolume_nonneg ls (fun x hx => hvol x (List.mem_cons_of_mem l hx))
      have hT : totalVolume (l :: ls) = l.volume + totalVolume ls := by
        simp [totalVolume]
      rcases eq_or_lt_of_le hv with h0 | h0
      · rw [← h0, walkLevels_nonpos _ 0 le_rfl]
        rw [min_eq_left (by linarith [hT] : (0 : ℚ) ≤ totalVolume (l :: ls))]
      · simp only [walkLevels, if_neg (not_le.mpr h0)]
        rw [ih (v - min v l.volume)
          (by simp [sub_nonneg, min_le_left])
          (fun x hx => hvol x (List.mem_cons_of_mem l hx))]
        rw [hT]
        rcases le_total v l.volume with hle | hle
        · rw [min_eq_left hle, sub_self, min_eq_left hS,
            min_eq_left (by linarith : v ≤ l.volume + totalVolume ls)]
          ring
        · rw [min_eq_right hle]
          simp only [min_def]
          split_ifs <;> linarith

/-- On a book all of whose prices are at least `p` (and volumes nonnegative),
the walk's cost is at least `p` times the filled volume. -/
theorem walkLevels_cost_ge (p : ℚ) (ls : List OrderbookLevel) :
    ∀ v : ℚ, (∀ l ∈ ls, p ≤ l.price) → (∀ l ∈ ls, 0 ≤ l.volume) →
      p * (walkLevels ls v).2 ≤ (walkLevels ls v).1 := by
  induction ls with
  | nil => intro v _ _; simp [walkLevels]
  | cons l ls ih =>
      intro v hp hvol
      by_cases h0 : v ≤ 0
      · simp [walkLevels, if_pos h0]
      · push_neg at h0
        simp only [walkLevels, if_neg (not_le.mpr h0)]
        have hlv : 0 ≤ l.volume := hvol l (List.mem_cons_self l ls)
        have hf : 0 ≤ min v l.volume := le_min h0.le hlv
        have h1 := ih (v - min v l.volume)
          (fun x hx => hp x (List.mem_cons_of_mem l hx))
          (fun x hx => hvol x (List.mem_cons_of_mem l hx))
        have h2 : p * min v l.volume ≤ min v l.volume * l.price := by
          rw [mul_comm]
          exact mul_le_mul_of_nonneg_left (hp l (List.mem_cons_self l ls)) hf
        rw [mul_add]
        linarith

/-- On a book all of whose prices are at least `p`, increasing the requested
volume increases the cost by at least `p` times the extra filled volume. -/
theorem walkLevels_cost_sub_ge (p : ℚ) (ls : List OrderbookLevel) :
    ∀ r1 r2 : ℚ, (∀ l ∈ ls, p ≤ l.price) → (∀ l ∈ ls, 0 ≤ l.volume) →
      0 ≤ r1 → r1 ≤ r2 →
      p * ((walkLevels ls r2).2 - (walkLevels ls r1).2) ≤
        (walkLevels ls r2).1 - (walkLevels ls r1).1 := by
  induction ls with
  | nil => intro r1 r2 _ _ _ _; simp [walkLevels]
  | cons l ls ih =>
      intro r1 r2 hp hvol hr1 hr12
      rcases eq_or_lt_of_le hr1 with h0 | h0
      · rw [← h0, walkLevels_nonpos _ 0 le_rfl]
        simpa using walkLevels_cost_ge p (l :: ls) r2 hp hvol
      · have hr2 : 0 < r2 := lt_of_lt_of_le h0 hr12
        simp only [walkLevels, if_neg (not_le.mpr h0), if_neg (not_le.mpr hr2)]
        have hlv : 0 ≤ l.volume := hvol l (List.mem_cons_self l ls)
        have hf12 : min r1 l.volume ≤ min r2 l.volume := min_le_min hr12 le_rfl
        have hfp : p * (min r2 l.volume - min r1 l.volume) ≤
            (min r2 l.volume - min r1 l.volume) * l.price := by
          rw [mul_comm]
          exact mul_le_mul_of_nonneg_left (hp l (List.mem_cons_self l ls)) (by linarith)
        have h0s : 0 ≤ r1 - min r1 l.volume := by
          simp [sub_nonneg, min_le_left]
        have h12s : r1 - min r1 l.volume ≤ r2 - min r2 l.volume := by
          simp only [min_def]
          split_ifs <;> linarith
        have hrec := ih (r1 - min r1 l.volume) (r2 - min r2 l.volume)
          (fun x hx => hp x (List.mem_cons_of_mem l hx))
          (fun x hx => hvol x (List.mem_cons_of_mem l hx))
          h0s h12s
        nlinarith [hfp, hrec]

/-- Core monotonicity: on a book with ascending nonnegative prices and
nonnegative volumes, the average executable price is nondecreasing over fully
fillable volumes (stated product-wise: `cost(v1)/v1 ≤ cost(v2)/v2`). -/
theorem walkLevels_avg_mono (ls : List OrderbookLevel) :
    ∀ v1 v2 : ℚ, List.Pairwise (fun a b => a.price ≤ b.price) ls →
      (∀ l ∈ ls, 0 ≤ l.price) → (∀ l ∈ ls, 0 ≤ l.volume) →
      0 < v1 → v1 ≤ v2 → (walkLevels ls v2).2 = v2 →
      (walkLevels ls v1).1 * v2 ≤ (walkLevels ls v2).1 * v1 := by
  induction ls with
  | nil =>
      intro v1 v2 _ _ _ hv1 hv12 hfull
      simp [walkLevels]
  | cons l ls ih =>
      intro v1 v2 hpair hpos hvol hv1 hv12 hfull
      have hv2 : 0 < v2 := lt_of_lt_of_le hv1 hv12
      have hheadpos : 0 ≤ l.price := hpos l (List.mem_cons_self l ls)
      have hheadvol : 0 ≤ l.volume := hvol l (List.mem_cons_self l ls)
      obtain ⟨hge, hpairtail⟩ := List.pairwise_cons.mp hpair
      have hptail : ∀ x ∈ ls, 0 ≤ x.price :=
        fun x hx => hpos x (List.mem_cons_of_mem l hx)
      have hvtail : ∀ x ∈ ls, 0 ≤ x.volume :=
        fun x hx => hvol x (List.mem_cons_of_mem l hx)
      have hzf : (walkLevels ls 0).1 = 0 := by
        rw [walkLevels_nonpos ls 0 le_rfl]
      simp only [walkLevels, if_neg (not_le.mpr hv1), if_neg (not_le.mpr hv2)] at hfull ⊢
      rcases le_total v2 l.volume with hA | hA
      · have hval1 : min v1 l.volume = v1 := min_eq_left (le_trans hv12 hA)
        have hval2 : min v2 l.volume = v2 := min_eq_left hA
        rw [hval1, hval2, sub_self, sub_self, hzf]
        nlinarith [hv1]
      · have hval2 : min v2 l.volume = l.volume := min_eq_right hA
        rw [hval2] at hfull ⊢
        have hfull2 : (walkLevels ls (v2 - l.volume)).2 = v2 - l.volume := by linarith [hfull]
        have hcge := walkLevels_cost_ge l.price ls (v2 - l.volume) hge hvtail
        rw [hfull2] at hcge
        rcases le_total v1 l.volume with hB | hB
        · have hval1 : min v1 l.volume = v1 := min_eq_left hB
          rw [hval1, sub_self, hzf]
          nlinarith [mul_le_mul_of_nonneg_left hcge hv1.le]
        · have hval1 : min v1 l.volume = l.volume := min_eq_right hB
          rw [hval1]
          rcases eq_or_lt_of_le hB with hVeq | hVlt
          · rw [hVeq] at hcge ⊢
            rw [sub_self, hzf]
            nlinarith [mul_le_mul_of_nonneg_left hcge hv1.le]
          · have hsub1 : 0 < v1 - l.volume := by linarith
            have hsub12 : v1 - l.volume ≤ v2 - l.volume := by linarith
            have hSfull : v2 - l.volume ≤ totalVolume ls := by
              have hm := walkLevels_filled_eq_min ls (v2 - l.volume)
                (by linarith) hvtail
              rw [hfull2] at hm
              exact min_eq_left_iff.mp hm.symm
            have hfull1 : (walkLevels ls (v1 - l.volume)).2 = v1 - l.volume := by
              rw [walkLevels_filled_eq_min ls (v1 - l.volume) hsub1.le hvtail]
              exact min_eq_left (by linarith)
            have hrec := ih (v1 - l.volume) (v2 - l.volume) hpairtail hptail hvtail
              hsub1 hsub12 hfull2
            have hd := walkLevels_cost_sub_ge l.price ls (v1 - l.volume) (v2 - l.volume)
              hge hvtail hsub1.le hsub12
            rw [hfull1, hfull2] at hd
            nlinarith [hrec, mul_le_mul_of_nonneg_left hd hheadvol]

/-- Price-flipped book: each level's price `p` becomes `p0 - p`, volumes
unchanged.  Turns a descending bid book into an ascending nonneg-price book. -/
def flipLevels (p0 : ℚ) (ls : List OrderbookLevel) : List OrderbookLevel :=
  ls.map (fun l => ⟨p0 - l.price, l.volume⟩)

/-- Walking the flipped book gives cost `p0 · filled − cost` and the same
filled volume. -/
theorem walkLevels_flip (p0 : ℚ) (ls : List OrderbookLevel) :
    ∀ r : ℚ, walkLevels (flipLevels p0 ls) r =
      (p0 * (walkLevels ls r).2 - (walkLevels ls r).1, (walkLevels ls r).2) := by
  induction ls with
  | nil => intro r; simp [walkLevels, flipLevels]
  | cons l ls ih =>
      intro r
      by_cases h0 : r ≤ 0
      · simp [walkLevels, flipLevels, if_pos h0]
      · simp only [flipLevels, List.map_cons, walkLevels, if_neg h0]
        rw [show flipLevels p0 ls = ls.map (fun l => ⟨p0 - l.price, l.volume⟩) from rfl] at ih
        rw [ih (r - min r l.volume)]
        rw [Prod.mk.injEq]
        constructor
        · ring
        · rfl

/-- Under a strictly positive requested volume that the book fully fills,
`estimate_slippage` is the relative deviation of the average fill price from
the best price of the side. -/
theorem estimate_slippage_fullfill (ob : Orderbook) (side : String) (v : ℚ)
    (hv : 0 < v) (l : OrderbookLevel) (ls : List OrderbookLevel)
    (hL : ob.levelsFor side = l :: ls)
    (hfull : (walkLevels (ob.levelsFor side) v).2 = v)
    (hbestpos : 0 < l.price) :
    estimate_slippage ob side v =
      |((walkLevels (ob.levelsFor side) v).1 / v - l.price) / l.price| * 100 := by
  have hbest : (if side = "sell" then ob.best_bid else ob.best_ask) = l.price := by
    by_cases hside : side = "sell"
    · have hb : ob.bids = l :: ls := by simpa [Orderbook.levelsFor, hside] using hL
      simp [hside, Orderbook.best_bid, hb]
    · have hb : ob.asks = l :: ls := by simpa [Orderbook.levelsFor, hside] using hL
      simp [hside, Orderbook.best_ask, hb]
  unfold estimate_slippage Orderbook.get_executable_price
  rw [if_neg (ne_of_gt hv)]
  simp only [hfull]
  rw [if_neg (ne_of_gt hv)]
  simp only
  rw [if_neg (ne_of_gt hv), if_neg (lt_irrefl v), hbest, if_neg (ne_of_gt hbestpos)]

/-- C4 amended: `estimate_slippage` is exactly 0 at volume 0; and for a fixed
orderbook whose relevant side has strictly positive prices, nonnegative
volumes, and levels sorted best-first (ascending asks for buys, descending
bids for sells), the estimate is monotonically non-decreasing over requested
volumes the book fills completely.  (Across the full-fill boundary the
original claim fails: a full fill's slippage can exceed the partial-fill
sentinel 50.) -/
theorem estimate_slippage_zero_and_fullfill_monotone :
    ∀ (ob : Orderbook) (side : String) (v1 v2 : ℚ),
      estimate_slippage ob side 0 = 0 ∧
      ((∀ l ∈ ob.levelsFor side, 0 < l.price) →
        (∀ l ∈ ob.levelsFor side, 0 ≤ l.volume) →
        (if side = "sell" then List.Pairwise (fun a b => b.price ≤ a.price) ob.bids
          else List.Pairwise (fun a b => a.price ≤ b.price) ob.asks) →
        0 < v1 → v1 ≤ v2 → (walkLevels (ob.levelsFor side) v2).2 = v2 →
        estimate_slippage ob side v1 ≤ estimate_slippage ob side v2) := by
  intro ob side v1 v2
  constructor
  · simp [estimate_slippage]
  · intro hpos hvol hsorted hv1 hv12 hfull2
    have hv2 : 0 < v2 := lt_of_lt_of_le hv1 hv12
    rcases hLcase : ob.levelsFor side with _ | ⟨l, ls⟩
    · rw [hLcase] at hfull2
      simp [walkLevels] at hfull2
      linarith
    · have hL : ob.levelsFor side = l :: ls := hLcase
      have hheadpos : 0 < l.price := hpos l (by rw [hL]; exact List.mem_cons_self l ls)
      have hfull1 : (walkLevels (ob.levelsFor side) v1).2 = v1 := by
        have hm2 := walkLevels_filled_eq_min (ob.levelsFor side) v2 hv2.le hvol
        rw [hfull2] at hm2
        have hle : v2 ≤ totalVolume (ob.levelsFor side) := min_eq_left_iff.mp hm2.symm
        rw [walkLevels_filled_eq_min (ob.levelsFor side) v1 hv1.le hvol]
        exact min_eq_left (by linarith)
      rw [estimate_slippage_fullfill ob side v1 hv1 l ls hL hfull1 hheadpos,
        estimate_slippage_fullfill ob side v2 hv2 l ls hL hfull2 hheadpos]
      have hposL : ∀ x ∈ l :: ls, 0 < x.price := by rw [← hL]; exact hpos
      have hvolL : ∀ x ∈ l :: ls, 0 ≤ x.volume := by rw [← hL]; exact hvol
      rw [hL] at hfull1 hfull2 ⊢
      set c1 := (walkLevels (l :: ls) v1).1 with hc1
      set c2 := (walkLevels (l :: ls) v2).1 with hc2
      by_cases hside : side = "sell"
      · -- sell side: descending bids, average decreases away from the best bid
        have hbids : ob.bids = l :: ls := by
          have := hL
          simpa [Orderbook.levelsFor, hside] using this
        rw [if_pos hside, hbids] at hsorted
        obtain ⟨hgebelow, hpairtail⟩ := List.pairwise_cons.mp hsorted
        have hallle : ∀ x ∈ l :: ls, x.price ≤ l.price := by
          intro x hx
          rcases List.mem_cons.mp hx with h | h
          · rw [h]
          · exact hgebelow x h
        have hflippair : List.Pairwise (fun a b => a.price ≤ b.price)
            (flipLevels l.price (l :: ls)) := by
          rw [flipLevels, List.pairwise_map]
          refine hsorted.imp ?_
          intro a b hab
          simpa using sub_le_sub_left hab l.price
        have hflippos : ∀ x ∈ flipLevels l.price (l :: ls), 0 ≤ x.price := by
          intro x hx
          obtain ⟨y, hy, rfl⟩ := List.mem_map.mp hx
          simpa using hallle y hy
        have hflipvol : ∀ x ∈ flipLevels l.price (l :: ls), 0 ≤ x.volume := by
          intro x hx
          obtain ⟨y, hy, rfl⟩ := List.mem_map.mp hx
          simpa using hvolL y hy
        have hflipfull : (walkLevels (flipLevels l.price (l :: ls)) v2).2 = v2 := by
          rw [walkLevels_flip]
          exact hfull2
        have hmono := walkLevels_avg_mono (flipLevels l.price (l :: ls)) v1 v2
          hflippair hflippos hflipvol hv1 hv12 hflipfull
        rw [walkLevels_flip, walkLevels_flip] at hmono
        simp only [hfull1, hfull2, ← hc1, ← hc2] at hmono
        -- hmono : (l.price * v1 - c1) * v2 ≤ (l.price * v2 - c2) * v1
        have hkey : c2 * v1 ≤ c1 * v2 := by nlinarith [hmono]
        have hub1 : c1 ≤ l.price * v1 := by
          have := walkLevels_cost_ge 0 (flipLevels l.price (l :: ls)) v1 hflippos hflipvol
          rw [walkLevels_flip] at this
          simp only [hfull1, ← hc1] at this
          linarith
        have hub2 : c2 ≤ l.price * v2 := by
          have := walkLevels_cost_ge 0 (flipLevels l.price (l :: ls)) v2 hflippos hflipvol
          rw [walkLevels_flip] at this
          simp only [hfull2, ← hc2] at this
          linarith
        have hn1 : (c1 / v1 - l.price) / l.price ≤ 0 :=
          div_nonpos_of_nonpos_of_nonneg
            (by rw [sub_nonpos, div_le_iff₀ hv1]; linarith) hheadpos.le
        have hn2 : (c2 / v2 - l.price) / l.price ≤ 0 :=
          div_nonpos_of_nonpos_of_nonneg
            (by rw [sub_nonpos, div_le_iff₀ hv2]; linarith) hheadpos.le
        rw [abs_of_nonpos hn1, abs_of_nonpos hn2]
        have havg : c2 / v2 ≤ c1 / v1 := (div_le_div_iff₀ hv2 hv1).mpr hkey
        have : -((c1 / v1 - l.price) / l.price) ≤ -((c2 / v2 - l.price) / l.price) := by
          rw [neg_div', neg_div']
          exact (div_le_div_iff_of_pos_right hheadpos).mpr (by linarith)
        nlinarith [this]
      · -- buy side: ascending asks, average increases away from the best ask
        have hasks : ob.asks = l :: ls := by
          have := hL
          simpa [Orderbook.levelsFor, hside] using this
        rw [if_neg hside, hasks] at hsorted
        obtain ⟨hgeabove, hpairtail⟩ := List.pairwise_cons.mp hsorted
        have hallge : ∀ x ∈ l :: ls, l.price ≤ x.price := by
          intro x hx
          rcases List.mem_cons.mp hx with h | h
          · rw [h]
          · exact hgeabove x h
        have hmono := walkLevels_avg_mono (l :: ls) v1 v2 hsorted
          (fun x hx => (hposL x hx).le) hvolL hv1 hv12 hfull2
        rw [← hc1, ← hc2] at hmono
        have hlb1 : l.price * v1 ≤ c1 := by
          have := walkLevels_cost_ge l.price (l :: ls) v1 hallge hvolL
          rw [hfull1, ← hc1] at this
          exact this
        have hlb2 : l.price * v2 ≤ c2 := by
          have := walkLevels_cost_ge l.price (l :: ls) v2 hallge hvolL
          rw [hfull2, ← hc2] at this
          exact this
        have hn1 : 0 ≤ (c1 / v1 - l.price) / l.price :=
          div_nonneg (by rw [sub_nonneg, le_div_iff₀ hv1]; linarith) hheadpos.le
        have hn2 : 0 ≤ (c2 / v2 - l.price) / l.price :=
          div_nonneg (by rw [sub_nonneg, le_div_iff₀ hv2]; linarith) hheadpos.le
        rw [abs_of_nonneg hn1, abs_of_nonneg hn2]
        have havg : c1 / v1 ≤ c2 / v2 := (div_le_div_iff₀ hv1 hv2).mpr hmono
        have : (c1 / v1 - l.price) / l.price ≤ (c2 / v2 - l.price) / l.price :=
          (div_le_div_iff_of_pos_right hheadpos).mpr (by linarith)
        nlinarith [this]

/-- Witness for C4's amended statement: on ascending asks
[(1, 2), (2, 3)], requesting 1 then 2 (both fully fillable) gives
non-decreasing slippage. -/
theorem estimate_slippage_fullfill_monotone_witness :
    estimate_slippage ⟨[], [⟨1, 2⟩, ⟨2, 3⟩]⟩ "buy" 1 ≤
      estimate_slippage ⟨[], [⟨1, 2⟩, ⟨2, 3⟩]⟩ "buy" 2 := by
  refine (estimate_slippage_zero_and_fullfill_monotone
    ⟨[], [⟨1, 2⟩, ⟨2, 3⟩]⟩ "buy" 1 2).2 ?_ ?_ ?_ (by norm_num) (by norm_num) ?_
  · intro l hl
    simp [Orderbook.levelsFor] at hl
    rcases hl with h | h <;> rw [h] <;> norm_num
  · intro l hl
    simp [Orderbook.levelsFor] at hl
    rcases hl with h | h <;> rw [h] <;> norm_num
  · simp [List.pairwise_cons]
  · simp [Orderbook.levelsFor, walkLevels, min_def]
    norm_num
